import Mathlib

/-!
Shallow embedding of the procedural SVG scene generators of this
repository: `hw1/svg_competition.py` (embedded with the `hw1` prefix)
and `src/generate_competition_svg.py` (embedded with the `src` prefix).

Coordinates are exact rationals.  The floating-point library functions
`math.cos`, `math.sin` and the constant `math.pi` are abstracted as a
bundle of parameters (`Trig`): every verified property is either
independent of their values or assumes the few algebraic facts about
them explicitly.  Decimal literals appearing in the Python source
(`0.45`, `0.7`, `12.6`, ...) are carried over as the exact rationals
they denote.
-/

/-- Abstraction of the `math` module as used by the two generator
scripts: the constant `pi` and the functions `cos` and `sin`. -/
structure Trig where
  pi : ℚ
  cos : ℚ → ℚ
  sin : ℚ → ℚ

/-- A draw primitive of the emitted document: a `<texture .../>`
declaration, a solid `<polygon .../>` (triangles and hill silhouettes),
or a textured triangle `<textri .../>`. -/
inductive Prim where
  | texture (filename texid : String)
  | solid (fill : String) (pts : List (ℚ × ℚ))
  | textri (texid : String) (uvs pts : List (ℚ × ℚ))
deriving DecidableEq

/-- Whether a primitive is a texture declaration. -/
def Prim.isTexture : Prim → Bool
  | .texture _ _ => true
  | _ => false

/-- Whether a primitive is a textured triangle. -/
def Prim.isTextri : Prim → Bool
  | .textri _ _ _ => true
  | _ => false

/-- Whether a primitive is a solid polygon. -/
def Prim.isSolid : Prim → Bool
  | .solid _ _ => true
  | _ => false

/-- The fill color of a solid primitive, if any. -/
def Prim.fillOf : Prim → Option String
  | .solid f _ => some f
  | _ => none

/-- `emit_triangle` of `hw1/svg_competition.py` (line 58): a solid
polygon record with three vertices. -/
def emit_triangle (p0 p1 p2 : ℚ × ℚ) (fill : String) : Prim :=
  .solid fill [p0, p1, p2]

/-- The background layer (both scripts emit the same four triangles:
`hw1/svg_competition.py` lines 79-82, `src/generate_competition_svg.py`
lines 48-51; `H * 0.5` and `H / 2` coincide over ℚ). -/
def backgroundTris (w h : ℕ) : List Prim :=
  [ emit_triangle (0, 0) ((w : ℚ), 0) (0, (h : ℚ) / 2) "#0a0e1a",
    emit_triangle ((w : ℚ), 0) ((w : ℚ), (h : ℚ) / 2) (0, (h : ℚ) / 2) "#0a0e1a",
    emit_triangle (0, (h : ℚ) / 2) ((w : ℚ), (h : ℚ) / 2) (0, (h : ℚ)) "#141c28",
    emit_triangle ((w : ℚ), (h : ℚ) / 2) ((w : ℚ), (h : ℚ)) (0, (h : ℚ)) "#141c28" ]

/-- The spiral palette shared by both scripts. -/
def spiral_colors : List String :=
  ["#3b82f6", "#8b5cf6", "#ec4899", "#f43f5e", "#f97316", "#eab308", "#22c55e"]

/-- `base_angle = 2 * math.pi * arm / n_arms` with `n_arms = 7`
(`hw1/svg_competition.py` line 91). -/
def hw1BaseAngle (T : Trig) (arm : ℕ) : ℚ := 2 * T.pi * (arm : ℚ) / 7

/-- The angle of the hw1 spiral at arm `arm` and parameter `t`:
`base_angle + t * 4 * math.pi` (`hw1/svg_competition.py` lines 98-99). -/
def hw1WedgeAngle (T : Trig) (arm : ℕ) (t : ℚ) : ℚ :=
  hw1BaseAngle T arm + t * 4 * T.pi

/-- The radius of the hw1 spiral at parameter `t`: `40 + t * 220`
(`hw1/svg_competition.py` lines 96-97). -/
def hw1WedgeRadius (t : ℚ) : ℚ := 40 + t * 220

/-- One wedge triangle of the hw1 spiral (`hw1/svg_competition.py`
lines 93-108): outer points at parameters `i/24` and `(i+1)/24`, plus
the pinch point pulled 15 units toward the center at the mid-angle. -/
def hw1SpiralWedge (T : Trig) (w h : ℕ) (arm i : ℕ) : Prim :=
  let cx : ℚ := (w : ℚ) * (5/10)
  let cy : ℚ := (h : ℚ) * (45/100)
  let t0 : ℚ := (i : ℚ) / 24
  let t1 : ℚ := ((i : ℚ) + 1) / 24
  let r0 := hw1WedgeRadius t0
  let r1 := hw1WedgeRadius t1
  let a0 := hw1WedgeAngle T arm t0
  let a1 := hw1WedgeAngle T arm t1
  let r2 := r0 + (r1 - r0) * (5/10)
  let a2 := (a0 + a1) / 2
  emit_triangle (cx + r0 * T.cos a0, cy + r0 * T.sin a0)
    (cx + r1 * T.cos a1, cy + r1 * T.sin a1)
    (cx + (r2 - 15) * T.cos a2, cy + (r2 - 15) * T.sin a2)
    (spiral_colors.getD (arm % spiral_colors.length) "")

/-- The hw1 spiral layer: 7 arms of 24 wedges (`hw1/svg_competition.py`
lines 87-108). -/
def hw1SpiralLayer (T : Trig) (w h : ℕ) : List Prim :=
  (List.range 7).flatMap fun arm =>
    (List.range 24).map fun i => hw1SpiralWedge T w h arm i

/-- Characters `0-9a-f` for one hex digit below 16, via `Nat.digitChar`. -/
def hexDigitsAux : ℕ → ℕ → List Char
  | 0, _ => []
  | fuel + 1, m =>
    if m < 16 then [Nat.digitChar m]
    else hexDigitsAux fuel (m / 16) ++ [Nat.digitChar (m % 16)]

/-- Lowercase hexadecimal digits of `n` (at least one digit). -/
def hexDigits (n : ℕ) : List Char := hexDigitsAux (n + 1) n

/-- Python's `f"{n:02x}"`: hex digits left-padded with `0` to width 2. -/
def pyHex2 (n : ℕ) : List Char :=
  List.replicate (2 - (hexDigits n).length) '0' ++ hexDigits n

/-- The computed fill of a hw1 diamond cell (`hw1/svg_competition.py`
lines 127-131): `shade = 0.15 + 0.25 * ((row + col) % 3)`, channels
`int(30 + shade*80)`, `int(40 + shade*60)`, `int(70 + shade*50)`,
formatted as `#rrggbb` with `%02x` fields. -/
def hw1DiamondColor (row col : ℕ) : String :=
  let shade : ℚ := (15/100) + (25/100) * (((row + col) % 3 : ℕ) : ℚ)
  let r := (⌊(30 : ℚ) + shade * 80⌋).toNat
  let g := (⌊(40 : ℚ) + shade * 60⌋).toNat
  let b := (⌊(70 : ℚ) + shade * 50⌋).toNat
  String.mk ('#' :: (pyHex2 r ++ pyHex2 g ++ pyHex2 b))

/-- The center `(ox + tile_sz/2, oy + tile_sz/2)` of a hw1 diamond cell,
with `ox = col*28 + (row % 2)*14` and `oy = row*28`
(`hw1/svg_competition.py` lines 115-120). -/
def hw1CellCenter (row col : ℕ) : ℚ × ℚ :=
  ((col : ℚ) * 28 + ((row % 2 : ℕ) : ℚ) * 14 + 28 / 2, (row : ℚ) * 28 + 28 / 2)

/-- The `k`-th triangle of a hw1 diamond cell (`hw1/svg_competition.py`
lines 121-131), with `tile_sz = 28`: two arm points at angles `k*pi/2`
and `(k+1)*pi/2` and radius `tile_sz * 0.45`. -/
def hw1DiamondTri (T : Trig) (row col k : ℕ) : Prim :=
  let cx := (hw1CellCenter row col).1
  let cy := (hw1CellCenter row col).2
  let a1 := (k : ℚ) * T.pi / 2
  let a2 := ((k : ℚ) + 1) * T.pi / 2
  emit_triangle (cx, cy)
    (cx + 28 * (45/100) * T.cos a1, cy + 28 * (45/100) * T.sin a1)
    (cx + 28 * (45/100) * T.cos a2, cy + 28 * (45/100) * T.sin a2)
    (hw1DiamondColor row col)

/-- One grid cell of the hw1 diamond layer: skipped entirely when
`oy > H * 0.7` (`hw1/svg_competition.py` lines 115-118), otherwise four
triangles. -/
def hw1DiamondCell (T : Trig) (w h : ℕ) (row col : ℕ) : List Prim :=
  let oy : ℚ := (row : ℚ) * 28
  if oy > (h : ℚ) * (7/10) then []
  else (List.range 4).map fun k => hw1DiamondTri T row col k

/-- The hw1 diamond layer: rows `0 .. H/28 + 1`, cols `0 .. W/28 + 1`
(`hw1/svg_competition.py` lines 113-114). -/
def hw1DiamondLayer (T : Trig) (w h : ℕ) : List Prim :=
  (List.range (h / 28 + 2)).flatMap fun row =>
    (List.range (w / 28 + 2)).flatMap fun col => hw1DiamondCell T w h row col

/-- Four corners of a panel, in the source's order: top-left, top-right,
bottom-right, bottom-left. -/
structure Quad4 where
  q0 : ℚ × ℚ
  q1 : ℚ × ℚ
  q2 : ℚ × ℚ
  q3 : ℚ × ℚ
deriving DecidableEq

/-- Indexing into a `Quad4` as the Python lists `corners[i]` / `uvs[i]`. -/
def quadGet (c : Quad4) : ℕ → ℚ × ℚ
  | 0 => c.q0
  | 1 => c.q1
  | 2 => c.q2
  | _ => c.q3

/-- `emit_textured_quad` of `hw1/svg_competition.py` (lines 63-69): the
two triangles `(0,1,2)` and `(0,2,3)` of the panel, uvs and points
picked at the same indices. -/
def emit_textured_quad (texid : String) (corners uvs : Quad4) : List Prim :=
  [(0, 1, 2), (0, 2, 3)].map fun ijk =>
    Prim.textri texid
      [quadGet uvs ijk.1, quadGet uvs ijk.2.1, quadGet uvs ijk.2.2]
      [quadGet corners ijk.1, quadGet corners ijk.2.1, quadGet corners ijk.2.2]

/-- Corners of an axis-aligned panel at `(x0, y0)` with size `pw × ph`,
in the order used by both scripts. -/
def panelCorners (x0 y0 pw ph : ℚ) : Quad4 :=
  ⟨(x0, y0), (x0 + pw, y0), (x0 + pw, y0 + ph), (x0, y0 + ph)⟩

/-- The hw1 textured layer: three panels (`hw1/svg_competition.py`
lines 135-167). -/
def hw1TexturedLayer (w h : ℕ) : List Prim :=
  emit_textured_quad "map"
      (panelCorners ((w : ℚ) * (15/100)) ((h : ℚ) * (58/100)) 220 160)
      ⟨((2/10), (25/100)), ((55/100), (25/100)), ((55/100), (6/10)), ((2/10), (6/10))⟩ ++
    emit_textured_quad "map"
      (panelCorners ((w : ℚ) * (52/100)) ((h : ℚ) * (62/100)) 180 130)
      ⟨((5/10), (1/10)), ((9/10), (1/10)), ((9/10), (5/10)), ((5/10), (5/10))⟩ ++
    emit_textured_quad "map"
      (panelCorners ((w : ℚ) * (68/100)) ((h : ℚ) * (52/100)) 90 95)
      ⟨((1/10), (6/10)), ((35/100), (6/10)), ((35/100), (9/10)), ((1/10), (9/10))⟩

/-- The three hill silhouette polygons, identical in both scripts
(`hw1/svg_competition.py` lines 170-174). -/
def hillsPolys (w h : ℕ) : List Prim :=
  [ .solid "#1e293b"
      [(0, 420), (120, 380), (280, 400), (450, 360), (600, 390),
       ((w : ℚ), 370), ((w : ℚ), (h : ℚ)), (0, (h : ℚ))],
    .solid "#334155"
      [(0, 520), (200, 460), (400, 500), (550, 450), (720, 480),
       ((w : ℚ), 440), ((w : ℚ), (h : ℚ)), (0, (h : ℚ))],
    .solid "#0f172a"
      [(0, 620), (80, 580), (240, 610), (380, 560), (520, 600),
       (680, 570), ((w : ℚ), 590), ((w : ℚ), (h : ℚ)), (0, (h : ℚ))] ]

/-- The three foreground accent triangles, identical in both scripts
(`hw1/svg_competition.py` lines 181-187). -/
def accentTris : List Prim :=
  [ emit_triangle (120, 680) (155, 600) (190, 680) "#4ade80",
    emit_triangle (380, 690) (415, 610) (450, 690) "#38bdf8",
    emit_triangle (600, 685) (635, 615) (670, 685) "#f97316" ]

/-- The texture path declared once per document. -/
def TEX_PATH : String := "../svg/texmap/pexels_scene.png"

/-- The full primitive sequence composed by `hw1/svg_competition.py`
`main` (lines 72-190), in emission order. -/
def hw1Scene (T : Trig) (w h : ℕ) : List Prim :=
  Prim.texture TEX_PATH "map" ::
    (backgroundTris w h ++ hw1SpiralLayer T w h ++ hw1DiamondLayer T w h ++
      hw1TexturedLayer w h ++ hillsPolys w h ++ accentTris)

/-- The angle of the src-variant spiral at parameter `t`:
`a = 2 * math.pi * t`, with no dependence on the arm index
(`src/generate_competition_svg.py` lines 67-68). -/
def srcWedgeAngle (T : Trig) (t : ℚ) : ℚ := 2 * T.pi * t

/-- The radius of the src-variant spiral at parameter `t`: `50 + 230*t`
(`src/generate_competition_svg.py` lines 65-66). -/
def srcWedgeRadius (t : ℚ) : ℚ := 50 + 230 * t

/-- One wedge triangle of the src-variant spiral
(`src/generate_competition_svg.py` lines 59-78); center `(W/2, H/2)`,
pinch point at `r_mid = (r0 + r1)/2 * 0.85`. -/
def srcSpiralWedge (T : Trig) (w h : ℕ) (arm i : ℕ) : Prim :=
  let cx : ℚ := (w : ℚ) / 2
  let cy : ℚ := (h : ℚ) / 2
  let t0 : ℚ := (i : ℚ) / 24
  let t1 : ℚ := ((i : ℚ) + 1) / 24
  let r0 := srcWedgeRadius t0
  let r1 := srcWedgeRadius t1
  let a0 := srcWedgeAngle T t0
  let a1 := srcWedgeAngle T t1
  let rMid := (r0 + r1) / 2 * (85/100)
  let aMid := (a0 + a1) / 2
  .solid (spiral_colors.getD (arm % spiral_colors.length) "")
    [(cx + r0 * T.cos a0, cy + r0 * T.sin a0),
     (cx + r1 * T.cos a1, cy + r1 * T.sin a1),
     (cx + rMid * T.cos aMid, cy + rMid * T.sin aMid)]

/-- The src-variant spiral layer: 7 arms of 24 wedges
(`src/generate_competition_svg.py` lines 57-78). -/
def srcSpiralLayer (T : Trig) (w h : ℕ) : List Prim :=
  (List.range 7).flatMap fun arm =>
    (List.range 24).map fun i => srcSpiralWedge T w h arm i

/-- `diamond_size = 12.6` of `src/generate_competition_svg.py`. -/
def diamond_size : ℚ := (63/5)

/-- The src-variant diamond palette. -/
def diamond_colors : List String := ["#2a314d", "#3e405a", "#524f66"]

/-- The center `(cx, cy)` of a src-variant diamond cell
(`src/generate_competition_svg.py` lines 88-89). -/
def srcCellCenter (row col : ℕ) : ℚ × ℚ :=
  ((col : ℚ) * diamond_size + (if row % 2 = 1 then diamond_size / 2 else 0),
   (row : ℚ) * diamond_size)

/-- One grid cell of the src-variant diamond layer
(`src/generate_competition_svg.py` lines 86-104): skipped when the
center exceeds the canvas by more than `diamond_size`; otherwise four
triangles from the center to pairs of corner points `(±d, ±d)`. -/
def srcDiamondCell (w h : ℕ) (row col : ℕ) : List Prim :=
  let cx : ℚ := (srcCellCenter row col).1
  let cy : ℚ := (srcCellCenter row col).2
  if cx > (w : ℚ) + diamond_size ∨ cy > (h : ℚ) + diamond_size then []
  else
    let color := diamond_colors.getD ((row + col) % 3) ""
    let d := diamond_size / 2
    [((d : ℚ), (0 : ℚ)), (0, d), (-d, 0), (0, -d)].map fun o =>
      let v1 := if |o.1| > (1/100) then (cx + o.1, cy + d) else (cx + d, cy + o.2)
      let v2 := if |o.1| > (1/100) then (cx + o.1, cy - d) else (cx - d, cy + o.2)
      Prim.solid color [(cx, cy), v1, v2]

/-- The src-variant diamond layer: rows `0 .. int(H/12.6) + 1`, cols
`0 .. int(W/12.6) + 1` (`src/generate_competition_svg.py` lines 86-87). -/
def srcDiamondLayer (w h : ℕ) : List Prim :=
  (List.range ((⌊(h : ℚ) / diamond_size⌋).toNat + 2)).flatMap fun row =>
    (List.range ((⌊(w : ℚ) / diamond_size⌋).toNat + 2)).flatMap fun col =>
      srcDiamondCell w h row col

/-- The six literal `textri` records of `src/generate_competition_svg.py`
(lines 109-114). -/
def srcTexturedLayer : List Prim :=
  [ .textri "map" [((2/10), (25/100)), ((55/100), (25/100)), ((55/100), (6/10))]
      [(120, 464), (340, 464), (340, 624)],
    .textri "map" [((2/10), (25/100)), ((55/100), (6/10)), ((2/10), (6/10))]
      [(120, 464), (340, 624), (120, 624)],
    .textri "map" [((5/10), (1/10)), ((9/10), (1/10)), ((9/10), (5/10))]
      [(416, 496), (596, 496), (596, 626)],
    .textri "map" [((5/10), (1/10)), ((9/10), (5/10)), ((5/10), (5/10))]
      [(416, 496), (596, 626), (416, 626)],
    .textri "map" [((1/10), (6/10)), ((35/100), (6/10)), ((35/100), (9/10))]
      [(544, 416), (634, 416), (634, 511)],
    .textri "map" [((1/10), (6/10)), ((35/100), (9/10)), ((1/10), (9/10))]
      [(544, 416), (634, 511), (544, 511)] ]

/-- The full primitive sequence composed by
`src/generate_competition_svg.py` `main` (lines 38-127), in emission
order. -/
def srcScene (T : Trig) (w h : ℕ) : List Prim :=
  Prim.texture TEX_PATH "map" ::
    (backgroundTris w h ++ srcSpiralLayer T w h ++ srcDiamondLayer w h ++
      srcTexturedLayer ++ hillsPolys w h ++ accentTris)

/-- Exactly `p` low decimal digits of `m`, most significant first,
zero-padded (the fractional field of a fixed-point format). -/
def natFixedDigits : ℕ → ℕ → List Char
  | 0, _ => []
  | p + 1, m => natFixedDigits p (m / 10) ++ [Nat.digitChar (m % 10)]

/-- Decimal digits with explicit fuel. -/
def decDigitsAux : ℕ → ℕ → List Char
  | 0, _ => []
  | fuel + 1, m =>
    if m < 10 then [Nat.digitChar m]
    else decDigitsAux fuel (m / 10) ++ [Nat.digitChar (m % 10)]

/-- Decimal digits of `n`, most significant first (at least one digit). -/
def decDigits (n : ℕ) : List Char := decDigitsAux (n + 1) n

/-- Python's fixed-point formatting `f"{x:.Nf}"` of a coordinate, as a
character list: the value rounded to `p` decimal places, an optional
sign, the integer digits, and (when `p > 0`) a dot followed by exactly
`p` fractional digits.  `f"{x:.4f}"` is used by `emit_triangle`
(`hw1/svg_competition.py` line 59) and by `fmt_pts`
(`src/generate_competition_svg.py` lines 20-21); `f"{x:.0f}"` is used
for the hw1 hill vertices (`hw1/svg_competition.py` line 176). -/
def fmtChars (p : ℕ) (q : ℚ) : List Char :=
  let n : ℤ := (q.num * 10 ^ p * 2 + (q.den : ℤ)).fdiv ((2 * q.den : ℕ) : ℤ)
  (if n < 0 then ['-'] else []) ++
    decDigits (n.natAbs / 10 ^ p) ++
    (if p = 0 then [] else '.' :: natFixedDigits p (n.natAbs % 10 ^ p))

/-- The integer computed inside `fmtChars` is the rounded value
`⌊q * 10^p + 1/2⌋` (the rounding that fixed-point formatting performs;
no emitted coordinate sits at a tie, so the tie-breaking direction is
immaterial). -/
theorem fmtChars_rounds (p : ℕ) (q : ℚ) :
    (q.num * 10 ^ p * 2 + (q.den : ℤ)).fdiv ((2 * q.den : ℕ) : ℤ) =
      ⌊q * 10 ^ p + 1 / 2⌋ := by
  have hq : q * 10 ^ p + 1 / 2 =
      ((q.num * 10 ^ p * 2 + (q.den : ℤ) : ℤ) : ℚ) / ((2 * q.den : ℕ) : ℚ) := by
    have hb : ((2 * q.den : ℕ) : ℚ) ≠ 0 := by
      have h2 : 0 < 2 * q.den := by
        have := q.den_pos
        omega
      exact_mod_cast h2.ne'
    have hqd : q * (q.den : ℚ) = (q.num : ℚ) := by
      exact_mod_cast Rat.mul_den_eq_num q
    rw [eq_div_iff hb]
    push_cast
    linear_combination 2 * (10 : ℚ) ^ p * hqd
  rw [hq, Rat.floor_intCast_div_natCast,
    Int.fdiv_eq_ediv _ (by positivity)]

/-- One `x,y` vertex token of a `points` attribute: the two formatted
coordinates joined by a comma (tokens are then joined by spaces). -/
def vertexToken (p : ℕ) (pt : ℚ × ℚ) : List Char :=
  fmtChars p pt.1 ++ ',' :: fmtChars p pt.2

/-- The serialized form of a solid primitive at coordinate precision
`p`: the fill attribute together with the vertex tokens whose
space-separated join forms the `points` attribute. -/
def recordOf (p : ℕ) : Prim → Option (String × List (List Char))
  | .solid f pts => some (f, pts.map (vertexToken p))
  | _ => none

/-- All `<polygon>` records that `hw1/svg_competition.py` writes through
`emit_triangle` (line 59), each coordinate at precision 4. -/
def hw1TriangleRecords (T : Trig) (w h : ℕ) : List (String × List (List Char)) :=
  (backgroundTris w h ++ hw1SpiralLayer T w h ++ hw1DiamondLayer T w h ++
    accentTris).filterMap (recordOf 4)

/-- The hill `<polygon>` records of `hw1/svg_competition.py` (line 176),
each coordinate at precision 0. -/
def hw1HillRecords (w h : ℕ) : List (String × List (List Char)) :=
  (hillsPolys w h).filterMap (recordOf 0)

/-- All `<polygon>` records of `src/generate_competition_svg.py`: every
polygon, hills included, goes through `fmt_pts` at precision 4
(lines 20-29). -/
def srcSolidRecords (T : Trig) (w h : ℕ) : List (String × List (List Char)) :=
  (srcScene T w h).filterMap (recordOf 4)

/-- Count of digit characters from the head up to the first dot of a
reversed character list; `none` when no dot is reached. -/
def decCount : List Char → Option ℕ
  | [] => none
  | c :: cs =>
    if c = '.' then some 0
    else if c.isDigit then (decCount cs).map Nat.succ
    else none

/-- The number of decimal places of a formatted number: the count of
trailing digits after the final dot, or `none` if there is none. -/
def decimalPlaces (l : List Char) : Option ℕ := decCount l.reverse

/-- Split a token at its first comma. -/
def splitAtComma : List Char → Option (List Char × List Char)
  | [] => none
  | c :: cs =>
    if c = ',' then some ([], cs)
    else (splitAtComma cs).map fun pr => (c :: pr.1, pr.2)

/-- The format the specification claims of a vertex token: an `x,y`
pair whose two coordinate fields each carry exactly `p` decimal
places. -/
def tokenPrec (p : ℕ) (tok : List Char) : Bool :=
  match splitAtComma tok with
  | some pr =>
    decide (decimalPlaces pr.1 = some p) && decide (decimalPlaces pr.2 = some p)
  | none => false

/-- A lowercase hexadecimal digit `0-9a-f`. -/
def isLowerHexDigit (c : Char) : Bool := c.isDigit || ('a' ≤ c && c ≤ 'f')

/-- A fill string of the shape `#` followed by exactly six lowercase
hexadecimal digits. -/
def isHexColor (s : String) : Bool :=
  match s.data with
  | '#' :: rest => rest.length == 6 && rest.all isLowerHexDigit
  | _ => false

/-- A serialized record whose fill is a hex color and whose vertex
tokens all carry `p` decimal places per coordinate. -/
def recordWellFormed (p : ℕ) (r : String × List (List Char)) : Bool :=
  isHexColor r.1 && r.2.all (tokenPrec p)

/-- Membership in the closed triangle with vertices `A`, `B`, `C`
(convex combinations of the three vertices). -/
def inTri (A B C p : ℚ × ℚ) : Prop :=
  ∃ a b c : ℚ, 0 ≤ a ∧ 0 ≤ b ∧ 0 ≤ c ∧ a + b + c = 1 ∧
    p.1 = a * A.1 + b * B.1 + c * C.1 ∧ p.2 = a * A.2 + b * B.2 + c * C.2

/-- Membership in the open triangle with vertices `A`, `B`, `C`
(the interior: all barycentric weights positive). -/
def inTriOpen (A B C p : ℚ × ℚ) : Prop :=
  ∃ a b c : ℚ, 0 < a ∧ 0 < b ∧ 0 < c ∧ a + b + c = 1 ∧
    p.1 = a * A.1 + b * B.1 + c * C.1 ∧ p.2 = a * A.2 + b * B.2 + c * C.2

/-- Membership in the closed canvas rectangle `[0, w] × [0, h]`. -/
def inRect (w h : ℕ) (p : ℚ × ℚ) : Prop :=
  0 ≤ p.1 ∧ p.1 ≤ (w : ℚ) ∧ 0 ≤ p.2 ∧ p.2 ≤ (h : ℚ)

/-- The vertex list of a primitive. -/
def Prim.ptsOf : Prim → List (ℚ × ℚ)
  | .solid _ pts => pts
  | .textri _ _ pts => pts
  | .texture _ _ => []

/-- Modelled from the claim C5 wording: the cell center lies within the
canvas bounds extended by a half-cell margin, for cell size `cell`. -/
def centerInHalfCellMargin (w h : ℕ) (cell : ℚ) (c : ℚ × ℚ) : Prop :=
  -(cell / 2) ≤ c.1 ∧ c.1 ≤ (w : ℚ) + cell / 2 ∧
    -(cell / 2) ≤ c.2 ∧ c.2 ≤ (h : ℚ) + cell / 2

/-- A concrete instantiation of the trig bundle, used to witness
hypothesis-carrying theorems: `pi := 2` and `cos`/`sin` tabulated at
the multiples of `pi/2` that the diamond code evaluates. -/
def trigStub : Trig where
  pi := 2
  cos := fun x =>
    if x = 0 then 1 else if x = 1 then 0 else
    if x = 2 then -1 else if x = 3 then 0 else
    if x = 4 then 1 else 0
  sin := fun x =>
    if x = 0 then 0 else if x = 1 then 1 else
    if x = 2 then 0 else if x = 3 then -1 else
    if x = 4 then 0 else 0

/-- A trig bundle with a nonzero `pi` (an arbitrary rational stands in;
no result depends on its value). -/
def trigPi227 : Trig := ⟨22 / 7, fun _ => 0, fun _ => 0⟩

/-- C2: in `hw1/svg_competition.py` the wedge angle of arm `k` at
parameter `t` is `base_angle(k) + t * total_sweep` with
`base_angle(k) = 2*pi*k/7` and `total_sweep = 4*pi` (two full turns),
and consecutive arms are spaced `2*pi/7` apart in base angle.  In
`src/generate_competition_svg.py` the wedge angle is `2*pi*t` with no
dependence on the arm index, so the claim fails there (see the
counterexample); the amended claim records both formulas. -/
theorem c2_wedge_angles (T : Trig) (arm : ℕ) (t : ℚ) :
    hw1WedgeAngle T arm t = 2 * T.pi * (arm : ℚ) / 7 + t * (4 * T.pi) ∧
    hw1BaseAngle T (arm + 1) - hw1BaseAngle T arm = 2 * T.pi / 7 ∧
    srcWedgeAngle T t = 2 * T.pi * t := by
  refine ⟨?_, ?_, rfl⟩
  · unfold hw1WedgeAngle hw1BaseAngle
    ring
  · unfold hw1BaseAngle
    push_cast
    ring

/-- C2 counterexample: with a nonzero `pi`, the src-variant wedge angle
for arm 1 at parameter `t = 0` is `0`, not `base_angle(1) = 2*pi/7` —
neither with a one-turn nor with a two-turn `total_sweep` — so the arms
of `generate_competition_svg.py` are not evenly spaced by base angle. -/
theorem c2_counterexample :
    srcWedgeAngle trigPi227 0 ≠
      2 * trigPi227.pi * (1 : ℚ) / 7 + 0 * (2 * trigPi227.pi) ∧
    srcWedgeAngle trigPi227 0 ≠
      2 * trigPi227.pi * (1 : ℚ) / 7 + 0 * (4 * trigPi227.pi) := by
  constructor <;> norm_num [srcWedgeAngle, trigPi227]

/-- C9: scene generation is deterministic.  For any positive canvas the
primitive sequence is a pure function of the inputs: two invocations
with the same dimensions (and the same math library) yield identical
sequences, and the output depends on the math library only through the
values of `pi`, `cos` and `sin`. -/
theorem c9_deterministic (T U : Trig) (w h : ℕ) (hw : 0 < w) (hh : 0 < h)
    (hpi : T.pi = U.pi) (hcos : ∀ x, T.cos x = U.cos x)
    (hsin : ∀ x, T.sin x = U.sin x) :
    hw1Scene T w h = hw1Scene U w h ∧ srcScene T w h = srcScene U w h := by
  have hT : T = U := by
    cases T
    cases U
    simp only at hpi hcos hsin
    simp [hpi, funext hcos, funext hsin]
  rw [hT]
  exact ⟨rfl, rfl⟩

/-- C9 witness: the determinism theorem applied at the reference canvas
800×800. -/
theorem c9_witness :
    hw1Scene trigStub 800 800 = hw1Scene trigStub 800 800 ∧
      srcScene trigStub 800 800 = srcScene trigStub 800 800 :=
  c9_deterministic trigStub trigStub 800 800 (by decide) (by decide) rfl
    (fun _ => rfl) (fun _ => rfl)

/-- C8: every textured panel is decomposed into exactly the two
triangles `(corner0, corner1, corner2)` and `(corner0, corner2, corner3)`
of its consistently ordered corners, with the uv list taken at the same
corner indices as the point list (position `i` pairs `uvs[i]` with
`corners[i]` of the same logical corner in both triangles); the six
literal `textri` records of `src/generate_competition_svg.py` are
exactly this decomposition of its three panels, and equal the hw1
textured layer at canvas 800×800. -/
theorem c8_textured_quads (texid : String) (c u : Quad4) :
    emit_textured_quad texid c u =
      [Prim.textri texid [u.q0, u.q1, u.q2] [c.q0, c.q1, c.q2],
       Prim.textri texid [u.q0, u.q2, u.q3] [c.q0, c.q2, c.q3]] ∧
    srcTexturedLayer =
      emit_textured_quad "map" (panelCorners 120 464 220 160)
        ⟨((2/10), (25/100)), ((55/100), (25/100)), ((55/100), (6/10)), ((2/10), (6/10))⟩ ++
      emit_textured_quad "map" (panelCorners 416 496 180 130)
        ⟨((5/10), (1/10)), ((9/10), (1/10)), ((9/10), (5/10)), ((5/10), (5/10))⟩ ++
      emit_textured_quad "map" (panelCorners 544 416 90 95)
        ⟨((1/10), (6/10)), ((35/100), (6/10)), ((35/100), (9/10)), ((1/10), (9/10))⟩ ∧
    hw1TexturedLayer 800 800 = srcTexturedLayer := by
  refine ⟨rfl, ?_, ?_⟩ <;>
    norm_num [srcTexturedLayer, hw1TexturedLayer, emit_textured_quad,
      panelCorners, quadGet]

/-- A vertex token that is an `x,y` pair of plain integers: neither
coordinate field contains a decimal point (Python's `:.0f`). -/
def tokenIsInt (tok : List Char) : Bool :=
  match splitAtComma tok with
  | some pr =>
    decide (decimalPlaces pr.1 = none) && decide (decimalPlaces pr.2 = none)
  | none => false

/-- Every hw1 spiral wedge is a solid primitive. -/
theorem hw1SpiralWedge_isSolid (T : Trig) (w h arm i : ℕ) :
    (hw1SpiralWedge T w h arm i).isSolid = true := rfl

/-- Every src-variant spiral wedge is a solid primitive. -/
theorem srcSpiralWedge_isSolid (T : Trig) (w h arm i : ℕ) :
    (srcSpiralWedge T w h arm i).isSolid = true := rfl

/-- Every primitive of the hw1 spiral layer is a solid primitive. -/
theorem hw1SpiralLayer_solid (T : Trig) (w h : ℕ) :
    ∀ p ∈ hw1SpiralLayer T w h, p.isSolid = true := by
  intro p hp
  simp only [hw1SpiralLayer, List.mem_flatMap, List.mem_map, List.mem_range] at hp
  obtain ⟨arm, -, i, -, rfl⟩ := hp
  rfl

/-- Every primitive of the src-variant spiral layer is solid. -/
theorem srcSpiralLayer_solid (T : Trig) (w h : ℕ) :
    ∀ p ∈ srcSpiralLayer T w h, p.isSolid = true := by
  intro p hp
  simp only [srcSpiralLayer, List.mem_flatMap, List.mem_map, List.mem_range] at hp
  obtain ⟨arm, -, i, -, rfl⟩ := hp
  rfl

/-- Every primitive of the hw1 diamond layer is solid. -/
theorem hw1DiamondLayer_solid (T : Trig) (w h : ℕ) :
    ∀ p ∈ hw1DiamondLayer T w h, p.isSolid = true := by
  intro p hp
  simp only [hw1DiamondLayer, List.mem_flatMap, List.mem_range] at hp
  obtain ⟨row, -, col, -, hp⟩ := hp
  by_cases hrow : ((row : ℚ) * 28 > (h : ℚ) * (7 / 10))
  · simp [hw1DiamondCell, hrow] at hp
  · simp only [hw1DiamondCell, hrow, if_false, List.mem_map, List.mem_range] at hp
    obtain ⟨k, -, rfl⟩ := hp
    rfl

/-- Every primitive of the src-variant diamond layer is solid. -/
theorem srcDiamondLayer_solid (w h : ℕ) :
    ∀ p ∈ srcDiamondLayer w h, p.isSolid = true := by
  intro p hp
  simp only [srcDiamondLayer, List.mem_flatMap, List.mem_range] at hp
  obtain ⟨row, -, col, -, hp⟩ := hp
  by_cases hc : ((srcCellCenter row col).1 > (w : ℚ) + diamond_size ∨
      (srcCellCenter row col).2 > (h : ℚ) + diamond_size)
  · simp [srcDiamondCell, hc] at hp
  · simp only [srcDiamondCell, hc, if_false, List.mem_map] at hp
    obtain ⟨o, -, rfl⟩ := hp
    rfl

/-- A solid primitive is neither a texture declaration nor a textured
triangle, so a list of solids contributes zero to both counts. -/
theorem countP_zero_of_solid {l : List Prim} (hl : ∀ p ∈ l, p.isSolid = true) :
    l.countP Prim.isTexture = 0 ∧ l.countP Prim.isTextri = 0 := by
  constructor <;>
  · refine List.countP_eq_zero.mpr fun p hp => ?_
    have := hl p hp
    cases p <;> simp_all [Prim.isSolid, Prim.isTexture, Prim.isTextri]

/-- Every primitive of the background layer is solid. -/
theorem backgroundTris_solid (w h : ℕ) :
    ∀ p ∈ backgroundTris w h, p.isSolid = true := by
  intro p hp
  simp only [backgroundTris, emit_triangle, List.mem_cons,
    List.not_mem_nil, or_false] at hp
  rcases hp with rfl | rfl | rfl | rfl <;> rfl

/-- Every hill polygon is solid. -/
theorem hillsPolys_solid (w h : ℕ) :
    ∀ p ∈ hillsPolys w h, p.isSolid = true := by
  intro p hp
  simp only [hillsPolys, List.mem_cons, List.not_mem_nil, or_false] at hp
  rcases hp with rfl | rfl | rfl <;> rfl

/-- Every accent triangle is solid. -/
theorem accentTris_solid : ∀ p ∈ accentTris, p.isSolid = true := by
  intro p hp
  simp only [accentTris, emit_triangle, List.mem_cons,
    List.not_mem_nil, or_false] at hp
  rcases hp with rfl | rfl | rfl <;> rfl

/-- C3: each spiral layer emits exactly `7 × 24 = 168` solid triangles,
and within an arm consecutive wedges share the outer-edge vertex: the
first vertex of wedge `i+1` equals the second vertex of wedge `i`.
This holds for both scripts. -/
theorem c3_spiral_count_continuity (T : Trig) (w h : ℕ) :
    (hw1SpiralLayer T w h).length = 7 * 24 ∧
    (srcSpiralLayer T w h).length = 7 * 24 ∧
    (∀ p ∈ hw1SpiralLayer T w h, p.isSolid = true ∧ p.ptsOf.length = 3) ∧
    (∀ arm i : ℕ, i + 1 < 24 →
      (hw1SpiralWedge T w h arm (i + 1)).ptsOf.getD 0 0 =
        (hw1SpiralWedge T w h arm i).ptsOf.getD 1 0) ∧
    (∀ arm i : ℕ, i + 1 < 24 →
      (srcSpiralWedge T w h arm (i + 1)).ptsOf.getD 0 0 =
        (srcSpiralWedge T w h arm i).ptsOf.getD 1 0) := by
  refine ⟨?_, ?_, ?_, ?_, ?_⟩
  · rw [hw1SpiralLayer, show List.range 7 = [0, 1, 2, 3, 4, 5, 6] from rfl]
    simp [List.flatMap_cons, List.flatMap_nil]
  · rw [srcSpiralLayer, show List.range 7 = [0, 1, 2, 3, 4, 5, 6] from rfl]
    simp [List.flatMap_cons, List.flatMap_nil]
  · intro p hp
    simp only [hw1SpiralLayer, List.mem_flatMap, List.mem_map,
      List.mem_range] at hp
    obtain ⟨arm, -, i, -, rfl⟩ := hp
    exact ⟨rfl, rfl⟩
  · intro arm i hi
    simp only [hw1SpiralWedge, hw1WedgeAngle, hw1WedgeRadius, hw1BaseAngle,
      emit_triangle, Prim.ptsOf, List.getD_cons_zero, List.getD_cons_succ]
    push_cast
    ring_nf
  · intro arm i hi
    simp only [srcSpiralWedge, srcWedgeAngle, srcWedgeRadius, Prim.ptsOf,
      List.getD_cons_zero, List.getD_cons_succ]
    push_cast
    ring_nf

/-- C3 witness: the continuity clause applied to the first two wedges
of arm 0 at the reference canvas. -/
theorem c3_witness :
    0 + 1 < 24 ∧
      (hw1SpiralWedge trigStub 800 800 0 (0 + 1)).ptsOf.getD 0 0 =
        (hw1SpiralWedge trigStub 800 800 0 0).ptsOf.getD 1 0 :=
  ⟨by norm_num,
    (c3_spiral_count_continuity trigStub 800 800).2.2.2.1 0 0 (by norm_num)⟩

/-- C1: at the reference canvas 800×800, each script's scene contains
exactly 1 texture reference declaration and 6 textured triangles, and
the background, foreground-accent and hill layers contain exactly 4, 3
and 3 primitives respectively. -/
theorem c1_compose_800_counts (T : Trig) :
    (hw1Scene T 800 800).countP Prim.isTexture = 1 ∧
    (hw1Scene T 800 800).countP Prim.isTextri = 6 ∧
    (srcScene T 800 800).countP Prim.isTexture = 1 ∧
    (srcScene T 800 800).countP Prim.isTextri = 6 ∧
    (backgroundTris 800 800).length = 4 ∧
    accentTris.length = 3 ∧
    (hillsPolys 800 800).length = 3 := by
  have hbg := countP_zero_of_solid (backgroundTris_solid 800 800)
  have hsp := countP_zero_of_solid (hw1SpiralLayer_solid T 800 800)
  have hdi := countP_zero_of_solid (hw1DiamondLayer_solid T 800 800)
  have hsp2 := countP_zero_of_solid (srcSpiralLayer_solid T 800 800)
  have hdi2 := countP_zero_of_solid (srcDiamondLayer_solid 800 800)
  have hhi := countP_zero_of_solid (hillsPolys_solid 800 800)
  have hac := countP_zero_of_solid accentTris_solid
  have htex1 : (hw1TexturedLayer 800 800).countP Prim.isTexture = 0 := rfl
  have htex2 : (hw1TexturedLayer 800 800).countP Prim.isTextri = 6 := rfl
  have htex3 : srcTexturedLayer.countP Prim.isTexture = 0 := rfl
  have htex4 : srcTexturedLayer.countP Prim.isTextri = 6 := rfl
  refine ⟨?_, ?_, ?_, ?_, rfl, rfl, rfl⟩ <;>
    simp [hw1Scene, srcScene, List.countP_cons, List.countP_append,
      hbg.1, hbg.2, hsp.1, hsp.2, hdi.1, hdi.2, hsp2.1, hsp2.2, hdi2.1,
      hdi2.2, hhi.1, hhi.2, hac.1, hac.2, htex1, htex2, htex3, htex4,
      Prim.isTexture, Prim.isTextri]

/-- C5 (amended): the diamond-tiling skip rules of the two scripts.  A
visited hw1 cell emits its 4 triangles iff `row * tile_sz ≤ 0.7 * H`
(no horizontal test at all); a visited src-variant cell emits its 4
triangles iff its center lies within the canvas extended by one full
`diamond_size` to the right and below.  Neither script implements the
half-cell-margin rule of the original claim. -/
theorem c5_skip_conditions (T : Trig) (w h row col : ℕ) :
    (hw1DiamondCell T w h row col).length =
      (if (row : ℚ) * 28 > (h : ℚ) * (7 / 10) then 0 else 4) ∧
    (srcDiamondCell w h row col).length =
      (if (srcCellCenter row col).1 > (w : ℚ) + diamond_size ∨
          (srcCellCenter row col).2 > (h : ℚ) + diamond_size
        then 0 else 4) := by
  constructor
  · by_cases hc : (row : ℚ) * 28 > (h : ℚ) * (7 / 10) <;>
      simp [hw1DiamondCell, hc]
  · by_cases hc : ((srcCellCenter row col).1 > (w : ℚ) + diamond_size ∨
        (srcCellCenter row col).2 > (h : ℚ) + diamond_size) <;>
      simp [srcDiamondCell, hc]

/-- C5 counterexample, both directions at canvas 800×800.  The hw1 cell
`(row, col) = (21, 0)` is visited (21 < 800/28 + 2) and has center
`(28, 602)`, well inside the canvas extended by a half cell, yet it is
skipped.  The src-variant cell `(0, 64)` is visited
(64 < int(800/12.6) + 2) and has center `(806.4, 0)`, beyond the
half-cell margin `800 + 6.3`, yet it emits its 4 triangles. -/
theorem c5_counterexample :
    (21 < 800 / 28 + 2 ∧
      (hw1DiamondCell trigStub 800 800 21 0).length = 0 ∧
      centerInHalfCellMargin 800 800 28 (hw1CellCenter 21 0)) ∧
    (64 < (⌊(800 : ℚ) / diamond_size⌋).toNat + 2 ∧
      (srcDiamondCell 800 800 0 64).length = 4 ∧
      ¬ centerInHalfCellMargin 800 800 diamond_size (srcCellCenter 0 64)) := by
  refine ⟨⟨by norm_num, ?_, ?_⟩, ⟨?_, ?_, ?_⟩⟩
  · rw [hw1DiamondCell, if_pos (by norm_num)]
    rfl
  · refine ⟨?_, ?_, ?_, ?_⟩ <;> norm_num [hw1CellCenter]
  · have h63 : (⌊(800 : ℚ) / diamond_size⌋ : ℤ) = 63 := by
      rw [Int.floor_eq_iff]
      constructor <;> norm_num [diamond_size]
    rw [h63]
    decide
  · rw [srcDiamondCell, if_neg (by norm_num [srcCellCenter, diamond_size])]
    rfl
  · intro hmem
    have hx := hmem.2.1
    norm_num [srcCellCenter, diamond_size] at hx

/-- The four cardinal offsets of radius `tile_sz * 0.45 = 12.6` used by
the hw1 diamond cell; index 4 wraps to index 0 (angle `2*pi`). -/
def cardOffset : ℕ → ℚ × ℚ
  | 0 => (63 / 5, 0)
  | 1 => (0, 63 / 5)
  | 2 => (-(63 / 5), 0)
  | 3 => (0, -(63 / 5))
  | _ => (63 / 5, 0)

/-- C4 (amended): every visited diamond cell emits exactly 4 triangles
(see the cell-length theorem of C5) and each triangle has the cell
center as its first vertex.  In `hw1/svg_competition.py`, under the
defining values of cosine and sine at the quadrant angles
`0, pi/2, pi, 3*pi/2, 2*pi`, triangle `k` is exactly the wedge from the
center to the cardinal offsets `k` and `k+1` — each offset has one zero
coordinate and squared norm exactly `half² = 12.6²` with
`half = tile_sz * 0.45`.  In `src/generate_competition_svg.py` the two
non-center vertices instead sit at the diagonal corner offsets
`(±d, ±d)`, `d = diamond_size / 2`, at squared distance `2·d²` — not on
a cardinal axis and not at distance `d` (see the counterexample). -/
theorem c4_diamond_geometry (T : Trig)
    (hcos0 : T.cos 0 = 1) (hsin0 : T.sin 0 = 0)
    (hcos1 : T.cos (T.pi / 2) = 0) (hsin1 : T.sin (T.pi / 2) = 1)
    (hcos2 : T.cos T.pi = -1) (hsin2 : T.sin T.pi = 0)
    (hcos3 : T.cos (3 * T.pi / 2) = 0) (hsin3 : T.sin (3 * T.pi / 2) = -1)
    (hcos4 : T.cos (2 * T.pi) = 1) (hsin4 : T.sin (2 * T.pi) = 0) :
    (∀ row col k : ℕ, k < 4 →
      hw1DiamondTri T row col k =
        Prim.solid (hw1DiamondColor row col)
          [hw1CellCenter row col,
           hw1CellCenter row col + cardOffset k,
           hw1CellCenter row col + cardOffset (k + 1)]) ∧
    (∀ k : ℕ, ((cardOffset k).1 = 0 ∨ (cardOffset k).2 = 0) ∧
      (cardOffset k).1 ^ 2 + (cardOffset k).2 ^ 2 = (28 * (45 / 100)) ^ 2) ∧
    (∀ w h row col : ℕ,
      srcDiamondCell w h row col = [] ∨
      srcDiamondCell w h row col =
        (let c := diamond_colors.getD ((row + col) % 3) ""
         let ctr := srcCellCenter row col
         let d : ℚ := diamond_size / 2
         [Prim.solid c [ctr, ctr + (d, d), ctr + (d, -d)],
          Prim.solid c [ctr, ctr + (d, d), ctr + (-d, d)],
          Prim.solid c [ctr, ctr + (-d, d), ctr + (-d, -d)],
          Prim.solid c [ctr, ctr + (d, -d), ctr + (-d, -d)]])) := by
  refine ⟨?_, ?_, ?_⟩
  · intro row col k hk
    interval_cases k
    · have e1 : ((0 : ℕ) : ℚ) * T.pi / 2 = 0 := by push_cast; ring
      have e2 : (((0 : ℕ) : ℚ) + 1) * T.pi / 2 = T.pi / 2 := by push_cast; ring
      simp only [hw1DiamondTri, emit_triangle, e1, e2, hcos0, hsin0,
        hcos1, hsin1, cardOffset, Prim.solid.injEq, Prod.mk_add_mk,
        Prod.mk.injEq]
      norm_num [Prod.ext_iff, Prod.fst_add, Prod.snd_add]
    · have e1 : ((1 : ℕ) : ℚ) * T.pi / 2 = T.pi / 2 := by push_cast; ring
      have e2 : (((1 : ℕ) : ℚ) + 1) * T.pi / 2 = T.pi := by push_cast; ring
      simp only [hw1DiamondTri, emit_triangle, e1, e2, hcos1, hsin1,
        hcos2, hsin2, cardOffset, Prim.solid.injEq, Prod.mk_add_mk,
        Prod.mk.injEq]
      norm_num [Prod.ext_iff, Prod.fst_add, Prod.snd_add]
    · have e1 : ((2 : ℕ) : ℚ) * T.pi / 2 = T.pi := by push_cast; ring
      have e2 : (((2 : ℕ) : ℚ) + 1) * T.pi / 2 = 3 * T.pi / 2 := by
        push_cast; ring
      simp only [hw1DiamondTri, emit_triangle, e1, e2, hcos2, hsin2,
        hcos3, hsin3, cardOffset, Prim.solid.injEq, Prod.mk_add_mk,
        Prod.mk.injEq]
      norm_num [Prod.ext_iff, Prod.fst_add, Prod.snd_add]
    · have e1 : ((3 : ℕ) : ℚ) * T.pi / 2 = 3 * T.pi / 2 := by
        push_cast; ring
      have e2 : (((3 : ℕ) : ℚ) + 1) * T.pi / 2 = 2 * T.pi := by
        push_cast; ring
      simp only [hw1DiamondTri, emit_triangle, e1, e2, hcos3, hsin3,
        hcos4, hsin4, cardOffset, Prim.solid.injEq, Prod.mk_add_mk,
        Prod.mk.injEq]
      norm_num [Prod.ext_iff, Prod.fst_add, Prod.snd_add]
  · intro k
    match k with
    | 0 => constructor <;> norm_num [cardOffset]
    | 1 => constructor <;> norm_num [cardOffset]
    | 2 => constructor <;> norm_num [cardOffset]
    | 3 => constructor <;> norm_num [cardOffset]
    | n + 4 =>
      have hco : cardOffset (n + 4) = (63 / 5, 0) := rfl
      rw [hco]
      constructor <;> norm_num
  · intro w h row col
    by_cases hc : ((srcCellCenter row col).1 > (w : ℚ) + diamond_size ∨
        (srcCellCenter row col).2 > (h : ℚ) + diamond_size)
    · left
      simp [srcDiamondCell, hc]
    · right
      have h1 : ((1 : ℚ) / 100 < |(63 / 10 : ℚ)|) := by
        rw [abs_of_pos (by norm_num)]
        norm_num
      have h2 : ¬ ((1 : ℚ) / 100 < |(0 : ℚ)|) := by
        rw [abs_zero]
        norm_num
      have h3 : ((1 : ℚ) / 100 < |(-(63 / 10) : ℚ)|) := by
        rw [abs_neg, abs_of_pos (by norm_num)]
        norm_num
      simp only [srcDiamondCell, hc, if_false]
      norm_num [diamond_size, Prod.mk_add_mk, Prod.ext_iff, h1, h2, h3,
        sub_eq_add_neg]

/-- C4 witness: the amended wedge equation at the concrete cell
`(row, col) = (5, 7)`, `k = 1`, with the tabulated trig bundle. -/
theorem c4_witness :
    1 < 4 ∧
      hw1DiamondTri trigStub 5 7 1 =
        Prim.solid (hw1DiamondColor 5 7)
          [hw1CellCenter 5 7,
           hw1CellCenter 5 7 + cardOffset 1,
           hw1CellCenter 5 7 + cardOffset 2] :=
  ⟨by norm_num,
    (c4_diamond_geometry trigStub
      (by norm_num [trigStub]) (by norm_num [trigStub])
      (by norm_num [trigStub]) (by norm_num [trigStub])
      (by norm_num [trigStub]) (by norm_num [trigStub])
      (by norm_num [trigStub]) (by norm_num [trigStub])
      (by norm_num [trigStub]) (by norm_num [trigStub])).1 5 7 1
      (by norm_num)⟩

/-- C4 counterexample: the first triangle of the visited src-variant
cell `(0, 0)` (center `(0, 0)`) has non-center vertex `(6.3, 6.3)`:
its offset from the center has both coordinates nonzero (it is not at
`(±half, 0)` or `(0, ±half)` for any `half`), and its squared distance
from the center is `2 · 6.3²`, not the claimed `half² = 6.3²`. -/
theorem c4_counterexample :
    (srcDiamondCell 800 800 0 0).getD 0 (Prim.solid "" []) =
      Prim.solid "#2a314d"
        [(0, 0), (63 / 10, 63 / 10), (63 / 10, -(63 / 10))] ∧
    ((63 / 10 : ℚ) ≠ 0 ∧
      (63 / 10 : ℚ) ^ 2 + (63 / 10 : ℚ) ^ 2 ≠ (63 / 10 : ℚ) ^ 2) := by
  refine ⟨?_, by norm_num, by norm_num⟩
  have h1 : ((1 : ℚ) / 100 < |(63 / 10 : ℚ)|) := by
    rw [abs_of_pos (by norm_num)]
    norm_num
  rw [srcDiamondCell, if_neg (by norm_num [srcCellCenter, diamond_size])]
  norm_num [srcCellCenter, diamond_size, diamond_colors, Prod.ext_iff, h1]

/-- Whether the fill attribute of a primitive (when it has one) is a
well-formed lowercase hex color. -/
def fillOk (p : Prim) : Bool :=
  match p with
  | .solid f _ => isHexColor f
  | _ => true

/-- The spiral palette lookup always returns a well-formed hex color. -/
theorem spiralFill_ok (arm : ℕ) :
    isHexColor (spiral_colors.getD (arm % spiral_colors.length) "") = true := by
  have hlt := Nat.mod_lt arm (show 0 < spiral_colors.length by decide)
  have h7 : spiral_colors.length = 7 := rfl
  generalize arm % spiral_colors.length = m at hlt ⊢
  rw [h7] at hlt
  have hc : m = 0 ∨ m = 1 ∨ m = 2 ∨ m = 3 ∨ m = 4 ∨ m = 5 ∨ m = 6 := by omega
  rcases hc with rfl | rfl | rfl | rfl | rfl | rfl | rfl <;> decide

/-- The diamond palette lookup always returns a well-formed hex color. -/
theorem diamondFill_ok (row col : ℕ) :
    isHexColor (diamond_colors.getD ((row + col) % 3) "") = true := by
  have hc : (row + col) % 3 = 0 ∨ (row + col) % 3 = 1 ∨ (row + col) % 3 = 2 := by
    omega
  rcases hc with hm | hm | hm <;> rw [hm] <;> decide

/-- The computed hw1 diamond fill equals the src-variant palette entry
at index `(row + col) % 3`: the two scripts agree on the shades. -/
theorem hw1DiamondColor_eq (row col : ℕ) :
    hw1DiamondColor row col = diamond_colors.getD ((row + col) % 3) "" := by
  have hc : (row + col) % 3 = 0 ∨ (row + col) % 3 = 1 ∨ (row + col) % 3 = 2 := by
    omega
  rcases hc with hm | hm | hm <;>
  · simp only [hw1DiamondColor, hm]
    norm_num
    decide

/-- Background fills are well-formed. -/
theorem backgroundFill_ok (w h : ℕ) :
    ∀ p ∈ backgroundTris w h, fillOk p = true := by
  intro p hp
  simp only [backgroundTris, emit_triangle, List.mem_cons,
    List.not_mem_nil, or_false] at hp
  rcases hp with rfl | rfl | rfl | rfl <;> rfl

/-- Hill fills are well-formed. -/
theorem hillsFill_ok (w h : ℕ) : ∀ p ∈ hillsPolys w h, fillOk p = true := by
  intro p hp
  simp only [hillsPolys, List.mem_cons, List.not_mem_nil, or_false] at hp
  rcases hp with rfl | rfl | rfl <;> rfl

/-- Accent fills are well-formed. -/
theorem accentsFill_ok : ∀ p ∈ accentTris, fillOk p = true := by
  intro p hp
  simp only [accentTris, emit_triangle, List.mem_cons,
    List.not_mem_nil, or_false] at hp
  rcases hp with rfl | rfl | rfl <;> rfl

/-- Spiral-layer fills are well-formed (hw1 variant). -/
theorem hw1SpiralFill_ok (T : Trig) (w h : ℕ) :
    ∀ p ∈ hw1SpiralLayer T w h, fillOk p = true := by
  intro p hp
  simp only [hw1SpiralLayer, List.mem_flatMap, List.mem_map,
    List.mem_range] at hp
  obtain ⟨arm, -, i, -, rfl⟩ := hp
  exact spiralFill_ok arm

/-- Spiral-layer fills are well-formed (src variant). -/
theorem srcSpiralFill_ok (T : Trig) (w h : ℕ) :
    ∀ p ∈ srcSpiralLayer T w h, fillOk p = true := by
  intro p hp
  simp only [srcSpiralLayer, List.mem_flatMap, List.mem_map,
    List.mem_range] at hp
  obtain ⟨arm, -, i, -, rfl⟩ := hp
  exact spiralFill_ok arm

/-- Diamond-layer fills are well-formed (hw1 variant). -/
theorem hw1DiamondFill_ok (T : Trig) (w h : ℕ) :
    ∀ p ∈ hw1DiamondLayer T w h, fillOk p = true := by
  intro p hp
  simp only [hw1DiamondLayer, List.mem_flatMap, List.mem_range] at hp
  obtain ⟨row, -, col, -, hp⟩ := hp
  by_cases hrow : ((row : ℚ) * 28 > (h : ℚ) * (7 / 10))
  · simp [hw1DiamondCell, hrow] at hp
  · simp only [hw1DiamondCell, hrow, if_false, List.mem_map,
      List.mem_range] at hp
    obtain ⟨k, -, rfl⟩ := hp
    show isHexColor (hw1DiamondColor row col) = true
    rw [hw1DiamondColor_eq]
    exact diamondFill_ok row col

/-- Diamond-layer fills are well-formed (src variant). -/
theorem srcDiamondFill_ok (w h : ℕ) :
    ∀ p ∈ srcDiamondLayer w h, fillOk p = true := by
  intro p hp
  simp only [srcDiamondLayer, List.mem_flatMap, List.mem_range] at hp
  obtain ⟨row, -, col, -, hp⟩ := hp
  by_cases hc : ((srcCellCenter row col).1 > (w : ℚ) + diamond_size ∨
      (srcCellCenter row col).2 > (h : ℚ) + diamond_size)
  · simp [srcDiamondCell, hc] at hp
  · simp only [srcDiamondCell, hc, if_false, List.mem_map] at hp
    obtain ⟨o, -, rfl⟩ := hp
    exact diamondFill_ok row col

/-- Textured-layer fills are vacuously well-formed (hw1 variant). -/
theorem hw1TexturedFill_ok (w h : ℕ) :
    ∀ p ∈ hw1TexturedLayer w h, fillOk p = true := by
  intro p hp
  simp only [hw1TexturedLayer, List.mem_append, emit_textured_quad,
    List.mem_map, List.mem_cons, List.not_mem_nil, or_false] at hp
  rcases hp with (⟨ijk, -, rfl⟩ | ⟨ijk, -, rfl⟩) | ⟨ijk, -, rfl⟩ <;> rfl

/-- Textured-layer fills are vacuously well-formed (src variant). -/
theorem srcTexturedFill_ok : ∀ p ∈ srcTexturedLayer, fillOk p = true := by
  intro p hp
  simp only [srcTexturedLayer, List.mem_cons, List.not_mem_nil,
    or_false] at hp
  rcases hp with rfl | rfl | rfl | rfl | rfl | rfl <;> rfl

/-- Every primitive of the hw1 scene carries a well-formed fill: solid
fills are lowercase `#rrggbb` colors. -/
theorem hw1Scene_fillOk (T : Trig) (w h : ℕ) :
    ∀ p ∈ hw1Scene T w h, fillOk p = true := by
  intro p hp
  rcases List.mem_cons.mp hp with rfl | hp
  · rfl
  rcases List.mem_append.mp hp with hp | hp
  rotate_left
  · exact accentsFill_ok p hp
  rcases List.mem_append.mp hp with hp | hp
  rotate_left
  · exact hillsFill_ok w h p hp
  rcases List.mem_append.mp hp with hp | hp
  rotate_left
  · exact hw1TexturedFill_ok w h p hp
  rcases List.mem_append.mp hp with hp | hp
  rotate_left
  · exact hw1DiamondFill_ok T w h p hp
  rcases List.mem_append.mp hp with hp | hp
  · exact backgroundFill_ok w h p hp
  · exact hw1SpiralFill_ok T w h p hp

/-- Every primitive of the src-variant scene carries a well-formed
fill. -/
theorem srcScene_fillOk (T : Trig) (w h : ℕ) :
    ∀ p ∈ srcScene T w h, fillOk p = true := by
  intro p hp
  rcases List.mem_cons.mp hp with rfl | hp
  · rfl
  rcases List.mem_append.mp hp with hp | hp
  rotate_left
  · exact accentsFill_ok p hp
  rcases List.mem_append.mp hp with hp | hp
  rotate_left
  · exact hillsFill_ok w h p hp
  rcases List.mem_append.mp hp with hp | hp
  rotate_left
  · exact srcTexturedFill_ok p hp
  rcases List.mem_append.mp hp with hp | hp
  rotate_left
  · exact srcDiamondFill_ok w h p hp
  rcases List.mem_append.mp hp with hp | hp
  · exact backgroundFill_ok w h p hp
  · exact srcSpiralFill_ok T w h p hp

/-- C10: every fill color attached to an emitted primitive, in either
script, is `#` followed by exactly six lowercase hexadecimal digits;
the hw1 diamond shade arithmetic always yields channels within 0..255
(so `%02x` never overflows two hex digits), and the computed diamond
colors coincide with the src-variant palette. -/
theorem c10_fill_colors (T : Trig) (w h : ℕ) :
    (hw1Scene T w h).all fillOk = true ∧
    (srcScene T w h).all fillOk = true ∧
    (∀ row col : ℕ,
      hw1DiamondColor row col = diamond_colors.getD ((row + col) % 3) "" ∧
      (0 ≤ ⌊(30 : ℚ) + ((15 / 100) + (25 / 100) *
          (((row + col) % 3 : ℕ) : ℚ)) * 80⌋ ∧
        ⌊(30 : ℚ) + ((15 / 100) + (25 / 100) *
          (((row + col) % 3 : ℕ) : ℚ)) * 80⌋ ≤ 255) ∧
      (0 ≤ ⌊(40 : ℚ) + ((15 / 100) + (25 / 100) *
          (((row + col) % 3 : ℕ) : ℚ)) * 60⌋ ∧
        ⌊(40 : ℚ) + ((15 / 100) + (25 / 100) *
          (((row + col) % 3 : ℕ) : ℚ)) * 60⌋ ≤ 255) ∧
      (0 ≤ ⌊(70 : ℚ) + ((15 / 100) + (25 / 100) *
          (((row + col) % 3 : ℕ) : ℚ)) * 50⌋ ∧
        ⌊(70 : ℚ) + ((15 / 100) + (25 / 100) *
          (((row + col) % 3 : ℕ) : ℚ)) * 50⌋ ≤ 255)) := by
  refine ⟨List.all_eq_true.mpr (hw1Scene_fillOk T w h),
    List.all_eq_true.mpr (srcScene_fillOk T w h), ?_⟩
  intro row col
  have hc : (row + col) % 3 = 0 ∨ (row + col) % 3 = 1 ∨
      (row + col) % 3 = 2 := by omega
  refine ⟨hw1DiamondColor_eq row col, ?_, ?_, ?_⟩ <;>
    rcases hc with hm | hm | hm <;> rw [hm] <;> constructor <;> norm_num

/-- A digit character below 10 is a decimal digit. -/
theorem digitChar_isDigit {d : ℕ} (hd : d < 10) :
    (Nat.digitChar d).isDigit = true := by
  interval_cases d <;> decide

/-- A decimal digit character is not a comma. -/
theorem isDigit_ne_comma {c : Char} (hc : c.isDigit = true) : c ≠ ',' := by
  intro h
  rw [h] at hc
  exact absurd hc (by decide)

/-- A decimal digit character is not a dot. -/
theorem isDigit_ne_dot {c : Char} (hc : c.isDigit = true) : c ≠ '.' := by
  intro h
  rw [h] at hc
  exact absurd hc (by decide)

/-- The fractional field has exactly `p` characters. -/
theorem natFixedDigits_length (p m : ℕ) : (natFixedDigits p m).length = p := by
  induction p generalizing m with
  | zero => rfl
  | succ p ih => simp [natFixedDigits, ih]

/-- The fractional field consists of decimal digits. -/
theorem natFixedDigits_digits (p m : ℕ) :
    ∀ c ∈ natFixedDigits p m, c.isDigit = true := by
  induction p generalizing m with
  | zero => simp [natFixedDigits]
  | succ p ih =>
    intro c hc
    simp only [natFixedDigits, List.mem_append, List.mem_cons,
      List.not_mem_nil, or_false] at hc
    rcases hc with hc | rfl
    · exact ih _ c hc
    · exact digitChar_isDigit (Nat.mod_lt _ (by norm_num))

/-- The integer field consists of decimal digits (auxiliary form). -/
theorem decDigitsAux_digits (fuel m : ℕ) :
    ∀ c ∈ decDigitsAux fuel m, c.isDigit = true := by
  induction fuel generalizing m with
  | zero => simp [decDigitsAux]
  | succ fuel ih =>
    intro c hc
    simp only [decDigitsAux] at hc
    by_cases hm : m < 10
    · simp only [hm, if_true, List.mem_cons, List.not_mem_nil,
        or_false] at hc
      subst hc
      exact digitChar_isDigit hm
    · simp only [hm, if_false, List.mem_append, List.mem_cons,
        List.not_mem_nil, or_false] at hc
      rcases hc with hc | rfl
      · exact ih _ c hc
      · exact digitChar_isDigit (Nat.mod_lt _ (by norm_num))

/-- The integer field consists of decimal digits. -/
theorem decDigits_digits (n : ℕ) : ∀ c ∈ decDigits n, c.isDigit = true :=
  decDigitsAux_digits (n + 1) n

/-- Formatted coordinates never contain a comma. -/
theorem fmtChars_no_comma (p : ℕ) (q : ℚ) : ',' ∉ fmtChars p q := by
  intro hc
  simp only [fmtChars, List.mem_append] at hc
  rcases hc with (hc | hc) | hc
  · split at hc <;> simp at hc
  · exact isDigit_ne_comma (decDigits_digits _ _ hc) rfl
  · split at hc
    · simp at hc
    · simp only [List.mem_cons] at hc
      rcases hc with hc | hc
      · exact absurd hc (by decide)
      · exact isDigit_ne_comma (natFixedDigits_digits _ _ _ hc) rfl

/-- Counting backwards over digit characters reaches the dot and counts
the digits in between. -/
theorem decCount_digits_append (fs r : List Char)
    (hfs : ∀ c ∈ fs, c.isDigit = true) :
    decCount (fs ++ '.' :: r) = some fs.length := by
  induction fs with
  | nil => simp [decCount]
  | cons c cs ih =>
    have hc : c.isDigit = true := hfs c (by simp)
    have hne : c ≠ '.' := isDigit_ne_dot hc
    simp only [List.cons_append, decCount, if_neg hne, hc, if_true,
      List.length_cons, List.append_eq]
    rw [ih fun x hx => hfs x (by simp [hx])]
    rfl

/-- A character list without a dot has no decimal places. -/
theorem decCount_no_dot (l : List Char) (hl : '.' ∉ l) :
    decCount l = none := by
  induction l with
  | nil => rfl
  | cons c cs ih =>
    have hne : c ≠ '.' := fun hc => hl (by simp [hc])
    simp only [decCount, if_neg hne]
    by_cases hd : c.isDigit
    · simp [hd, ih fun hc => hl (by simp [hc])]
    · simp [hd]

/-- At a nonzero precision `p`, a formatted coordinate carries exactly
`p` decimal places. -/
theorem decimalPlaces_fmtChars (p : ℕ) (hp : p ≠ 0) (q : ℚ) :
    decimalPlaces (fmtChars p q) = some p := by
  unfold decimalPlaces fmtChars
  simp only [hp, if_false]
  rw [List.reverse_append, List.reverse_cons, List.append_assoc,
    List.singleton_append]
  rw [decCount_digits_append]
  · rw [List.length_reverse, natFixedDigits_length]
  · intro c hc
    rw [List.mem_reverse] at hc
    exact natFixedDigits_digits _ _ c hc

/-- At precision 0 a formatted coordinate has no decimal point at
all. -/
theorem decimalPlaces_fmtChars_zero (q : ℚ) :
    decimalPlaces (fmtChars 0 q) = none := by
  unfold decimalPlaces
  apply decCount_no_dot
  rw [List.mem_reverse]
  intro hc
  simp only [fmtChars, if_true] at hc
  rw [List.append_nil] at hc
  rw [List.mem_append] at hc
  rcases hc with hc | hc
  · split at hc <;> simp at hc
  · exact isDigit_ne_dot (decDigits_digits _ _ hc) rfl

/-- Splitting at the first comma inverts token construction. -/
theorem splitAtComma_append (a b : List Char) (ha : ',' ∉ a) :
    splitAtComma (a ++ ',' :: b) = some (a, b) := by
  induction a with
  | nil => simp [splitAtComma]
  | cons c cs ih =>
    have hne : c ≠ ',' := fun hc => ha (by simp [hc])
    simp only [List.cons_append, splitAtComma, if_neg hne, List.append_eq]
    rw [ih fun hc => ha (by simp [hc])]
    rfl

/-- A vertex token written at nonzero precision `p` is an `x,y` pair
whose coordinate fields carry exactly `p` decimal places. -/
theorem tokenPrec_vertexToken (p : ℕ) (hp : p ≠ 0) (pt : ℚ × ℚ) :
    tokenPrec p (vertexToken p pt) = true := by
  unfold tokenPrec vertexToken
  rw [splitAtComma_append _ _ (fmtChars_no_comma p pt.1)]
  simp [decimalPlaces_fmtChars p hp]

/-- A vertex token written at precision 0 is an `x,y` pair of plain
integers. -/
theorem tokenIsInt_vertexToken (pt : ℚ × ℚ) :
    tokenIsInt (vertexToken 0 pt) = true := by
  unfold tokenIsInt vertexToken
  rw [splitAtComma_append _ _ (fmtChars_no_comma 0 pt.1)]
  simp [decimalPlaces_fmtChars_zero]

/-- A polygon record serialized at precision 4 from a solid primitive
with a well-formed fill is well-formed: `#`-hex fill and `x,y` tokens
with exactly 4 decimal places per coordinate. -/
theorem recordOf_wellFormed {p : Prim} {r : String × List (List Char)}
    (hfill : fillOk p = true) (hr : recordOf 4 p = some r) :
    recordWellFormed 4 r = true := by
  cases p with
  | solid f pts =>
    simp only [recordOf, Option.some.injEq] at hr
    subst hr
    simp only [recordWellFormed, Bool.and_eq_true]
    refine ⟨hfill, ?_⟩
    rw [List.all_eq_true]
    intro tok htok
    rw [List.mem_map] at htok
    obtain ⟨pt, -, rfl⟩ := htok
    exact tokenPrec_vertexToken 4 (by norm_num) pt
  | texture a b => simp [recordOf] at hr
  | textri a b c => simp [recordOf] at hr

/-- A polygon record serialized at precision 0 from a solid primitive
with a well-formed fill has a `#`-hex fill and integer `x,y` tokens. -/
theorem recordOf_int {p : Prim} {r : String × List (List Char)}
    (hfill : fillOk p = true) (hr : recordOf 0 p = some r) :
    (isHexColor r.1 && r.2.all tokenIsInt) = true := by
  cases p with
  | solid f pts =>
    simp only [recordOf, Option.some.injEq] at hr
    subst hr
    simp only [Bool.and_eq_true]
    refine ⟨hfill, ?_⟩
    rw [List.all_eq_true]
    intro tok htok
    rw [List.mem_map] at htok
    obtain ⟨pt, -, rfl⟩ := htok
    exact tokenIsInt_vertexToken pt
  | texture a b => simp [recordOf] at hr
  | textri a b c => simp [recordOf] at hr

/-- C7 (amended): in `hw1/svg_competition.py` every polygon record
written by `emit_triangle` has a `#`-prefixed 6-hex-digit fill and
comma-joined `x,y` vertex tokens with exactly 4 decimal places per
coordinate, but the three hill polygon records are written with 0
decimal places (plain integers, `:.0f`), contradicting the original
claim; in `src/generate_competition_svg.py` every polygon record,
hills included, uses 4 decimal places. -/
theorem c7_record_formats (T : Trig) (w h : ℕ) :
    (hw1TriangleRecords T w h).all (recordWellFormed 4) = true ∧
    ((hw1HillRecords w h).all fun r =>
      isHexColor r.1 && r.2.all tokenIsInt) = true ∧
    (srcSolidRecords T w h).all (recordWellFormed 4) = true := by
  refine ⟨?_, ?_, ?_⟩
  · rw [List.all_eq_true]
    intro r hr
    rw [hw1TriangleRecords, List.mem_filterMap] at hr
    obtain ⟨p, hp, hrec⟩ := hr
    refine recordOf_wellFormed ?_ hrec
    rcases List.mem_append.mp hp with hp | hp
    rotate_left
    · exact accentsFill_ok p hp
    rcases List.mem_append.mp hp with hp | hp
    rotate_left
    · exact hw1DiamondFill_ok T w h p hp
    rcases List.mem_append.mp hp with hp | hp
    · exact backgroundFill_ok w h p hp
    · exact hw1SpiralFill_ok T w h p hp
  · rw [List.all_eq_true]
    intro r hr
    rw [hw1HillRecords, List.mem_filterMap] at hr
    obtain ⟨p, hp, hrec⟩ := hr
    exact recordOf_int (hillsFill_ok w h p hp) hrec
  · rw [List.all_eq_true]
    intro r hr
    rw [srcSolidRecords, List.mem_filterMap] at hr
    obtain ⟨p, hp, hrec⟩ := hr
    exact recordOf_wellFormed (srcScene_fillOk T w h p hp) hrec

/-- C7 counterexample: at the reference canvas the hw1 hill records are
not 4-decimal-place records — the very first vertex of the first hill
is serialized as `0,420` (by `f"{pts[i]:.0f},{pts[i+1]:.0f}"`), which
carries no decimal places at all. -/
theorem c7_counterexample :
    (hw1HillRecords 800 800).all (recordWellFormed 4) = false ∧
    ((hw1HillRecords 800 800).getD 0 ("", [])).2.getD 0 [] =
      ['0', ',', '4', '2', '0'] ∧
    tokenPrec 4 ['0', ',', '4', '2', '0'] = false := by
  refine ⟨by decide, by decide, by decide⟩

/-- The six claimed background vertices: the four canvas corners plus
the two horizontal-midline endpoints. -/
def bgSixPoints (w h : ℕ) : List (ℚ × ℚ) :=
  [(0, 0), ((w : ℚ), 0), (0, (h : ℚ) / 2), ((w : ℚ), (h : ℚ) / 2),
   (0, (h : ℚ)), ((w : ℚ), (h : ℚ))]

/-- The union of the background triangles' vertices is exactly the six
claimed points. -/
theorem bg_vertexSet (w h : ℕ) (v : ℚ × ℚ) :
    (∃ p ∈ backgroundTris w h, v ∈ p.ptsOf) ↔ v ∈ bgSixPoints w h := by
  simp only [backgroundTris, emit_triangle, Prim.ptsOf, bgSixPoints,
    List.mem_cons, List.not_mem_nil, or_false]
  constructor
  · rintro ⟨p, hp, hv⟩
    rcases hp with rfl | rfl | rfl | rfl <;>
      simp only [Prim.ptsOf, List.mem_cons, List.not_mem_nil,
        or_false] at hv <;> tauto
  · intro hv
    rcases hv with rfl | rfl | rfl | rfl | rfl | rfl
    · exact ⟨_, Or.inl rfl, by simp [Prim.ptsOf]⟩
    · exact ⟨_, Or.inl rfl, by simp [Prim.ptsOf]⟩
    · exact ⟨_, Or.inl rfl, by simp [Prim.ptsOf]⟩
    · exact ⟨_, Or.inr (Or.inl rfl), by simp [Prim.ptsOf]⟩
    · exact ⟨_, Or.inr (Or.inr (Or.inl rfl)), by simp [Prim.ptsOf]⟩
    · exact ⟨_, Or.inr (Or.inr (Or.inr rfl)), by simp [Prim.ptsOf]⟩

/-- For a positive canvas the six background vertices are pairwise
distinct. -/
theorem bg_sixPoints_nodup (w h : ℕ) (hw : 0 < w) (hh : 0 < h) :
    (bgSixPoints w h).Nodup := by
  have hwQ : (0 : ℚ) < w := by exact_mod_cast hw
  have hhQ : (0 : ℚ) < h := by exact_mod_cast hh
  have f1 : ((w : ℚ) = 0) = False := by simp [ne_of_gt hwQ]
  have f2 : ((0 : ℚ) = (w : ℚ)) = False := by simp [ne_of_lt hwQ]
  have f3 : ((h : ℚ) = 0) = False := by simp [ne_of_gt hhQ]
  have f4 : ((0 : ℚ) = (h : ℚ)) = False := by simp [ne_of_lt hhQ]
  have f5 : ((h : ℚ) / 2 = 0) = False := by
    simp only [eq_iff_iff, iff_false]
    positivity
  have f6 : ((0 : ℚ) = (h : ℚ) / 2) = False := by
    simp only [eq_iff_iff, iff_false]
    intro hc
    have : (h : ℚ) / 2 ≠ 0 := by positivity
    exact this hc.symm
  have f7 : ((h : ℚ) / 2 = (h : ℚ)) = False := by
    simp only [eq_iff_iff, iff_false]
    intro hc
    have : (h : ℚ) = 0 := by linarith
    rw [f3] at this
    exact this
  have f8 : ((h : ℚ) = (h : ℚ) / 2) = False := by
    simp only [eq_iff_iff, iff_false]
    intro hc
    have : (h : ℚ) = 0 := by linarith
    rw [f3] at this
    exact this
  simp [bgSixPoints, List.nodup_cons, Prod.mk.injEq, Prod.ext_iff,
    Prod.fst_zero, Prod.snd_zero, f1, f2, f3, f4, f5, f6, f7, f8]

/-- Every point of the canvas rectangle lies in one of the four
background triangles. -/
theorem bg_cover_forward (w h : ℕ) (hw : 0 < w) (hh : 0 < h)
    (v : ℚ × ℚ) (hv : inRect w h v) :
    inTri (0, 0) ((w : ℚ), 0) (0, (h : ℚ) / 2) v ∨
    inTri ((w : ℚ), 0) ((w : ℚ), (h : ℚ) / 2) (0, (h : ℚ) / 2) v ∨
    inTri (0, (h : ℚ) / 2) ((w : ℚ), (h : ℚ) / 2) (0, (h : ℚ)) v ∨
    inTri ((w : ℚ), (h : ℚ) / 2) ((w : ℚ), (h : ℚ)) (0, (h : ℚ)) v := by
  have hwQ : (0 : ℚ) < w := by exact_mod_cast hw
  have hhQ : (0 : ℚ) < h := by exact_mod_cast hh
  have hw0 : (w : ℚ) ≠ 0 := ne_of_gt hwQ
  have hh0 : (h : ℚ) ≠ 0 := ne_of_gt hhQ
  have hwh : (0 : ℚ) < (w : ℚ) * h := by positivity
  obtain ⟨x, y⟩ := v
  obtain ⟨hx0, hxw, hy0, hyh⟩ := hv
  simp only [inTri] at *
  by_cases hhalf : y ≤ (h : ℚ) / 2
  · by_cases hdiag : x * h + 2 * y * w ≤ (w : ℚ) * h
    · left
      refine ⟨1 - x / w - 2 * y / h, x / w, 2 * y / h, ?_, ?_, ?_, ?_, ?_, ?_⟩
      · have key : x / w + 2 * y / h ≤ 1 := by
          rw [div_add_div _ _ hw0 hh0, div_le_one hwh]
          linarith
        linarith
      · exact div_nonneg hx0 hwQ.le
      · exact div_nonneg (by linarith) hhQ.le
      · ring
      · field_simp
      · field_simp
        try ring
    · right
      left
      refine ⟨1 - 2 * y / h, x / w + 2 * y / h - 1, 1 - x / w, ?_, ?_, ?_,
        ?_, ?_, ?_⟩
      · have key : 2 * y / h ≤ 1 := by
          rw [div_le_one hhQ]
          linarith
        linarith
      · have key : (1 : ℚ) ≤ x / w + 2 * y / h := by
          rw [div_add_div _ _ hw0 hh0, le_div_iff hwh]
          linarith
        linarith
      · have key : x / w ≤ 1 := by
          rw [div_le_one hwQ]
          exact hxw
        linarith
      · ring
      · field_simp
        try ring
      · field_simp
        try ring
  · by_cases hdiag : x * h + 2 * y * w ≤ 2 * ((w : ℚ) * h)
    · right
      right
      left
      refine ⟨2 - x / w - 2 * y / h, x / w, 2 * y / h - 1, ?_, ?_, ?_,
        ?_, ?_, ?_⟩
      · have key : x / w + 2 * y / h ≤ 2 := by
          rw [div_add_div _ _ hw0 hh0, div_le_iff hwh]
          linarith
        linarith
      · exact div_nonneg hx0 hwQ.le
      · have key : (1 : ℚ) ≤ 2 * y / h := by
          rw [le_div_iff hhQ]
          linarith
        linarith
      · ring
      · field_simp
      · field_simp
        try ring
    · right
      right
      right
      refine ⟨2 - 2 * y / h, x / w + 2 * y / h - 2, 1 - x / w, ?_, ?_, ?_,
        ?_, ?_, ?_⟩
      · have key : 2 * y / h ≤ 2 := by
          rw [div_le_iff hhQ]
          linarith
        linarith
      · have key : (2 : ℚ) ≤ x / w + 2 * y / h := by
          rw [div_add_div _ _ hw0 hh0, le_div_iff hwh]
          linarith
        linarith
      · have key : x / w ≤ 1 := by
          rw [div_le_one hwQ]
          exact hxw
        linarith
      · ring
      · field_simp
        try ring
      · field_simp
        try ring

/-- Every point of one of the four background triangles lies in the
canvas rectangle. -/
theorem bg_cover_backward (w h : ℕ) (hw : 0 < w) (hh : 0 < h)
    (v : ℚ × ℚ)
    (hv : inTri (0, 0) ((w : ℚ), 0) (0, (h : ℚ) / 2) v ∨
      inTri ((w : ℚ), 0) ((w : ℚ), (h : ℚ) / 2) (0, (h : ℚ) / 2) v ∨
      inTri (0, (h : ℚ) / 2) ((w : ℚ), (h : ℚ) / 2) (0, (h : ℚ)) v ∨
      inTri ((w : ℚ), (h : ℚ) / 2) ((w : ℚ), (h : ℚ)) (0, (h : ℚ)) v) :
    inRect w h v := by
  have hwQ : (0 : ℚ) < w := by exact_mod_cast hw
  have hhQ : (0 : ℚ) < h := by exact_mod_cast hh
  obtain ⟨x, y⟩ := v
  simp only [inTri, inRect] at *
  rcases hv with hv | hv | hv | hv
  · obtain ⟨a, b, c, ha, hb, hc, habc, hx, hy⟩ := hv
    refine ⟨?_, ?_, ?_, ?_⟩
    · nlinarith [mul_nonneg hb hwQ.le]
    · nlinarith [mul_nonneg (by linarith : (0 : ℚ) ≤ 1 - b) hwQ.le]
    · nlinarith [mul_nonneg hc hhQ.le]
    · nlinarith [mul_nonneg (by linarith : (0 : ℚ) ≤ 2 - c) hhQ.le]
  · obtain ⟨a, b, c, ha, hb, hc, habc, hx, hy⟩ := hv
    refine ⟨?_, ?_, ?_, ?_⟩
    · nlinarith [mul_nonneg ha hwQ.le, mul_nonneg hb hwQ.le]
    · nlinarith [mul_nonneg hc hwQ.le]
    · nlinarith [mul_nonneg hb hhQ.le, mul_nonneg hc hhQ.le]
    · nlinarith [mul_nonneg (by linarith : (0 : ℚ) ≤ 2 - b - c) hhQ.le]
  · obtain ⟨a, b, c, ha, hb, hc, habc, hx, hy⟩ := hv
    refine ⟨?_, ?_, ?_, ?_⟩
    · nlinarith [mul_nonneg hb hwQ.le]
    · nlinarith [mul_nonneg (by linarith : (0 : ℚ) ≤ 1 - b) hwQ.le]
    · nlinarith [mul_nonneg ha hhQ.le, mul_nonneg hb hhQ.le,
        mul_nonneg hc hhQ.le]
    · nlinarith [mul_nonneg (by linarith : (0 : ℚ) ≤ 1 - c) hhQ.le]
  · obtain ⟨a, b, c, ha, hb, hc, habc, hx, hy⟩ := hv
    refine ⟨?_, ?_, ?_, ?_⟩
    · nlinarith [mul_nonneg ha hwQ.le, mul_nonneg hb hwQ.le]
    · nlinarith [mul_nonneg hc hwQ.le]
    · nlinarith [mul_nonneg ha hhQ.le, mul_nonneg hb hhQ.le,
        mul_nonneg hc hhQ.le]
    · nlinarith [mul_nonneg ha hhQ.le]

/-- The interiors of the four background triangles are pairwise
disjoint: any overlap lies on shared edges only. -/
theorem bg_interiors_disjoint (w h : ℕ) (hw : 0 < w) (hh : 0 < h)
    (v : ℚ × ℚ) :
    ¬(inTriOpen (0, 0) ((w : ℚ), 0) (0, (h : ℚ) / 2) v ∧
      inTriOpen ((w : ℚ), 0) ((w : ℚ), (h : ℚ) / 2) (0, (h : ℚ) / 2) v) ∧
    ¬(inTriOpen (0, 0) ((w : ℚ), 0) (0, (h : ℚ) / 2) v ∧
      inTriOpen (0, (h : ℚ) / 2) ((w : ℚ), (h : ℚ) / 2) (0, (h : ℚ)) v) ∧
    ¬(inTriOpen (0, 0) ((w : ℚ), 0) (0, (h : ℚ) / 2) v ∧
      inTriOpen ((w : ℚ), (h : ℚ) / 2) ((w : ℚ), (h : ℚ)) (0, (h : ℚ)) v) ∧
    ¬(inTriOpen ((w : ℚ), 0) ((w : ℚ), (h : ℚ) / 2) (0, (h : ℚ) / 2) v ∧
      inTriOpen (0, (h : ℚ) / 2) ((w : ℚ), (h : ℚ) / 2) (0, (h : ℚ)) v) ∧
    ¬(inTriOpen ((w : ℚ), 0) ((w : ℚ), (h : ℚ) / 2) (0, (h : ℚ) / 2) v ∧
      inTriOpen ((w : ℚ), (h : ℚ) / 2) ((w : ℚ), (h : ℚ)) (0, (h : ℚ)) v) ∧
    ¬(inTriOpen (0, (h : ℚ) / 2) ((w : ℚ), (h : ℚ) / 2) (0, (h : ℚ)) v ∧
      inTriOpen ((w : ℚ), (h : ℚ) / 2) ((w : ℚ), (h : ℚ)) (0, (h : ℚ)) v) := by
  have hwQ : (0 : ℚ) < w := by exact_mod_cast hw
  have hhQ : (0 : ℚ) < h := by exact_mod_cast hh
  have hh0 : (h : ℚ) ≠ 0 := ne_of_gt hhQ
  have hwh : (0 : ℚ) < (w : ℚ) * h := by positivity
  obtain ⟨x, y⟩ := v
  simp only [inTriOpen]
  refine ⟨?_, ?_, ?_, ?_, ?_, ?_⟩
  · rintro ⟨⟨a1, b1, c1, ha1, hb1, hc1, hs1, hx1, hy1⟩,
      ⟨a2, b2, c2, ha2, hb2, hc2, hs2, hx2, hy2⟩⟩
    have e1 : x * h + 2 * y * w = (b1 + c1) * ((w : ℚ) * h) := by
      rw [hx1, hy1]
      ring
    have e2 : x * h + 2 * y * w = (a2 + 2 * b2 + c2) * ((w : ℚ) * h) := by
      rw [hx2, hy2]
      ring
    have hcan := mul_right_cancel₀ (ne_of_gt hwh) (e1.symm.trans e2)
    linarith
  · rintro ⟨⟨a1, b1, c1, ha1, hb1, hc1, hs1, hx1, hy1⟩,
      ⟨a2, b2, c2, ha2, hb2, hc2, hs2, hx2, hy2⟩⟩
    have e1 : 2 * y = c1 * (h : ℚ) := by
      rw [hy1]
      ring
    have e2 : 2 * y = (a2 + b2 + 2 * c2) * (h : ℚ) := by
      rw [hy2]
      ring
    have hcan := mul_right_cancel₀ hh0 (e1.symm.trans e2)
    linarith
  · rintro ⟨⟨a1, b1, c1, ha1, hb1, hc1, hs1, hx1, hy1⟩,
      ⟨a2, b2, c2, ha2, hb2, hc2, hs2, hx2, hy2⟩⟩
    have e1 : 2 * y = c1 * (h : ℚ) := by
      rw [hy1]
      ring
    have e2 : 2 * y = (a2 + 2 * b2 + 2 * c2) * (h : ℚ) := by
      rw [hy2]
      ring
    have hcan := mul_right_cancel₀ hh0 (e1.symm.trans e2)
    linarith
  · rintro ⟨⟨a1, b1, c1, ha1, hb1, hc1, hs1, hx1, hy1⟩,
      ⟨a2, b2, c2, ha2, hb2, hc2, hs2, hx2, hy2⟩⟩
    have e1 : 2 * y = (b1 + c1) * (h : ℚ) := by
      rw [hy1]
      ring
    have e2 : 2 * y = (a2 + b2 + 2 * c2) * (h : ℚ) := by
      rw [hy2]
      ring
    have hcan := mul_right_cancel₀ hh0 (e1.symm.trans e2)
    linarith
  · rintro ⟨⟨a1, b1, c1, ha1, hb1, hc1, hs1, hx1, hy1⟩,
      ⟨a2, b2, c2, ha2, hb2, hc2, hs2, hx2, hy2⟩⟩
    have e1 : 2 * y = (b1 + c1) * (h : ℚ) := by
      rw [hy1]
      ring
    have e2 : 2 * y = (a2 + 2 * b2 + 2 * c2) * (h : ℚ) := by
      rw [hy2]
      ring
    have hcan := mul_right_cancel₀ hh0 (e1.symm.trans e2)
    linarith
  · rintro ⟨⟨a1, b1, c1, ha1, hb1, hc1, hs1, hx1, hy1⟩,
      ⟨a2, b2, c2, ha2, hb2, hc2, hs2, hx2, hy2⟩⟩
    have e1 : x * h + 2 * y * w = (a1 + 2 * b1 + 2 * c1) * ((w : ℚ) * h) := by
      rw [hx1, hy1]
      ring
    have e2 : x * h + 2 * y * w = (2 * a2 + 3 * b2 + 2 * c2) * ((w : ℚ) * h) := by
      rw [hx2, hy2]
      ring
    have hcan := mul_right_cancel₀ (ne_of_gt hwh) (e1.symm.trans e2)
    linarith

/-- C6: for every positive canvas, the background layer emits exactly 4
solid triangles; the union of their vertices is exactly the six points
(the 4 canvas corners plus the 2 horizontal-midline endpoints), which
are pairwise distinct; the 4 closed triangles cover the canvas
rectangle exactly (a point is in the rectangle iff it is in one of
them); and their interiors are pairwise disjoint, so any overlap lies
only along shared edges. -/
theorem c6_background_cover (w h : ℕ) (hw : 0 < w) (hh : 0 < h) :
    (backgroundTris w h).length = 4 ∧
    (∀ p ∈ backgroundTris w h, p.isSolid = true ∧ p.ptsOf.length = 3) ∧
    (∀ v : ℚ × ℚ, (∃ p ∈ backgroundTris w h, v ∈ p.ptsOf) ↔
      v ∈ bgSixPoints w h) ∧
    (bgSixPoints w h).Nodup ∧
    (∀ v : ℚ × ℚ, inRect w h v ↔
      (inTri (0, 0) ((w : ℚ), 0) (0, (h : ℚ) / 2) v ∨
       inTri ((w : ℚ), 0) ((w : ℚ), (h : ℚ) / 2) (0, (h : ℚ) / 2) v ∨
       inTri (0, (h : ℚ) / 2) ((w : ℚ), (h : ℚ) / 2) (0, (h : ℚ)) v ∨
       inTri ((w : ℚ), (h : ℚ) / 2) ((w : ℚ), (h : ℚ)) (0, (h : ℚ)) v)) ∧
    (∀ v : ℚ × ℚ,
      ¬(inTriOpen (0, 0) ((w : ℚ), 0) (0, (h : ℚ) / 2) v ∧
        inTriOpen ((w : ℚ), 0) ((w : ℚ), (h : ℚ) / 2) (0, (h : ℚ) / 2) v) ∧
      ¬(inTriOpen (0, 0) ((w : ℚ), 0) (0, (h : ℚ) / 2) v ∧
        inTriOpen (0, (h : ℚ) / 2) ((w : ℚ), (h : ℚ) / 2) (0, (h : ℚ)) v) ∧
      ¬(inTriOpen (0, 0) ((w : ℚ), 0) (0, (h : ℚ) / 2) v ∧
        inTriOpen ((w : ℚ), (h : ℚ) / 2) ((w : ℚ), (h : ℚ)) (0, (h : ℚ)) v) ∧
      ¬(inTriOpen ((w : ℚ), 0) ((w : ℚ), (h : ℚ) / 2) (0, (h : ℚ) / 2) v ∧
        inTriOpen (0, (h : ℚ) / 2) ((w : ℚ), (h : ℚ) / 2) (0, (h : ℚ)) v) ∧
      ¬(inTriOpen ((w : ℚ), 0) ((w : ℚ), (h : ℚ) / 2) (0, (h : ℚ) / 2) v ∧
        inTriOpen ((w : ℚ), (h : ℚ) / 2) ((w : ℚ), (h : ℚ)) (0, (h : ℚ)) v) ∧
      ¬(inTriOpen (0, (h : ℚ) / 2) ((w : ℚ), (h : ℚ) / 2) (0, (h : ℚ)) v ∧
        inTriOpen ((w : ℚ), (h : ℚ) / 2) ((w : ℚ), (h : ℚ)) (0, (h : ℚ)) v)) := by
  refine ⟨rfl, ?_, bg_vertexSet w h, bg_sixPoints_nodup w h hw hh,
    fun v => ⟨bg_cover_forward w h hw hh v, bg_cover_backward w h hw hh v⟩,
    fun v => bg_interiors_disjoint w h hw hh v⟩
  intro p hp
  simp only [backgroundTris, emit_triangle, List.mem_cons,
    List.not_mem_nil, or_false] at hp
  rcases hp with rfl | rfl | rfl | rfl <;> exact ⟨rfl, rfl⟩

/-- C6 witness: the cover equivalence of the theorem instantiated at
canvas 800×800 and the sample point `(100, 50)`. -/
theorem c6_witness :
    (0 < 800 ∧ 0 < 800) ∧ (backgroundTris 800 800).length = 4 ∧
      (inRect 800 800 (100, 50) ↔
        (inTri (0, 0) (((800 : ℕ) : ℚ), 0) (0, ((800 : ℕ) : ℚ) / 2)
          (100, 50) ∨
         inTri (((800 : ℕ) : ℚ), 0) (((800 : ℕ) : ℚ), ((800 : ℕ) : ℚ) / 2)
          (0, ((800 : ℕ) : ℚ) / 2) (100, 50) ∨
         inTri (0, ((800 : ℕ) : ℚ) / 2) (((800 : ℕ) : ℚ), ((800 : ℕ) : ℚ) / 2)
          (0, ((800 : ℕ) : ℚ)) (100, 50) ∨
         inTri (((800 : ℕ) : ℚ), ((800 : ℕ) : ℚ) / 2)
          (((800 : ℕ) : ℚ), ((800 : ℕ) : ℚ)) (0, ((800 : ℕ) : ℚ))
          (100, 50))) :=
  ⟨⟨by norm_num, by norm_num⟩,
    (c6_background_cover 800 800 (by norm_num) (by norm_num)).1,
    (c6_background_cover 800 800 (by norm_num) (by norm_num)).2.2.2.2.1
      (100, 50)⟩
